import Mathlib

/-!
Verification of the sentinel_2pc controller
(src/uhs/twophase/sentinel_2pc/controller.hpp): the batched cryptographic
verification engine and the attestation-quorum protocol, shallowly embedded
in Lean 4.  The repository ships only the class declaration; the operation
bodies are modelled from the specification where noted.
-/

namespace Sentinel2pc

/-- An enumerated validation failure (`cbdc::transaction::validation::proof_error`):
malformed proof, invalid range proof, or signature mismatch. -/
inductive ProofError
  | malformedProof
  | invalidRangeProof
  | signatureMismatch
  deriving DecidableEq, Repr

/-- Outcome of one attestation-gathering operation. -/
inductive GatherResult
  | attested
  | quorumFailure
  deriving DecidableEq, Repr

/-- Modelled from the spec: the recursive core of `gather_attestations` /
`validate_result_handler` (bodies are not under src/).  The spec's randomized
sampling without replacement is represented by `pool`, the list of peer
indices not yet in the `requested` set, visited in the sampled draw order.
`acquired` counts attestations collected so far, `contacted` is the trace of
peer indices added to `requested`.  Once the quorum `q` is reached the
operation stops issuing requests and reports `attested`; if the pool is
exhausted first it reports `quorumFailure`.  A failing peer is never retried:
it is consumed from the pool exactly like a succeeding one. -/
def gatherFrom (peerOk : Nat → Bool) (q : Nat) :
    Nat → List Nat → List Nat → GatherResult × List Nat
  | acquired, contacted, pool =>
    if q ≤ acquired then (GatherResult.attested, contacted)
    else
      match pool with
      | [] => (GatherResult.quorumFailure, contacted)
      | p :: rest =>
          gatherFrom peerOk q (if peerOk p then acquired + 1 else acquired)
            (contacted ++ [p]) rest

/-- Modelled from the spec: `gather_attestations` for one validate call.
`order` is the full sampled draw order over the `M` peer indices of
`m_sentinel_clients` (a duplicate-free enumeration, since the spec samples
without replacement from a shrinking candidate pool).  Returns the terminal
outcome together with the list of peers contacted. -/
def gather_attestations (peerOk : Nat → Bool) (q : Nat) (order : List Nat) :
    GatherResult × List Nat :=
  gatherFrom peerOk q 0 [] order

/-- The contacted trace extends the accumulator by a sublist of the pool. -/
theorem gatherFrom_contacted_sublist (peerOk : Nat → Bool) (q : Nat) :
    ∀ (pool : List Nat) (acquired : Nat) (contacted : List Nat),
      List.Sublist (gatherFrom peerOk q acquired contacted pool).2 (contacted ++ pool) := by
  intro pool
  induction pool with
  | nil =>
      intro acquired contacted
      unfold gatherFrom
      split
      · simp
      · simp
  | cons p rest ih =>
      intro acquired contacted
      unfold gatherFrom
      split
      · exact List.sublist_append_left contacted (p :: rest)
      · have h := ih (if peerOk p then acquired + 1 else acquired) (contacted ++ [p])
        simpa using h

/-- On quorum failure the whole pool has been consumed: the contacted trace
is exactly the accumulator followed by the pool. -/
theorem gatherFrom_failure_contacts_all (peerOk : Nat → Bool) (q : Nat) :
    ∀ (pool : List Nat) (acquired : Nat) (contacted : List Nat),
      (gatherFrom peerOk q acquired contacted pool).1 = GatherResult.quorumFailure →
      (gatherFrom peerOk q acquired contacted pool).2 = contacted ++ pool := by
  intro pool
  induction pool with
  | nil =>
      intro acquired contacted h
      unfold gatherFrom at *
      split at h
      · exact absurd h (by simp)
      · simp [gatherFrom]
        split
        · simp_all
        · rfl
  | cons p rest ih =>
      intro acquired contacted h
      unfold gatherFrom at h ⊢
      split at h
      · exact absurd h (by simp)
      · rename_i hq
        simp only [hq, if_false]
        have := ih (if peerOk p then acquired + 1 else acquired) (contacted ++ [p]) h
        simpa using this

/-- With too few succeeding peers in the pool, quorum is never reached. -/
theorem gatherFrom_short_failure (peerOk : Nat → Bool) (q : Nat) :
    ∀ (pool : List Nat) (acquired : Nat) (contacted : List Nat),
      acquired + pool.countP peerOk < q →
      (gatherFrom peerOk q acquired contacted pool).1 = GatherResult.quorumFailure := by
  intro pool
  induction pool with
  | nil =>
      intro acquired contacted h
      unfold gatherFrom
      have hlt : ¬ q ≤ acquired := by
        simp only [List.countP_nil, Nat.add_zero] at h
        omega
      simp [hlt]
  | cons p rest ih =>
      intro acquired contacted h
      rw [List.countP_cons] at h
      unfold gatherFrom
      by_cases hp : peerOk p
      · simp only [hp, if_true] at h
        have hlt : ¬ q ≤ acquired := by omega
        simp only [hlt, if_false, hp, if_true]
        apply ih
        omega
      · simp only [hp] at h
        simp only [Bool.false_eq_true, if_false] at h
        have hlt : ¬ q ≤ acquired := by omega
        simp only [hlt, if_false, hp, Bool.false_eq_true]
        apply ih
        omega

/-- Source constant (controller.hpp): `static const inline size_t
VERIFICATION_BATCH_SIZE = 100;`, flagged in the source with
"TODO: add these as configurable variables". -/
def VERIFICATION_BATCH_SIZE : Nat := 100

/-- Source constant (controller.hpp): `static const inline int32_t
VERIFICATION_BATCH_REFRESH_MS = 250;`, flagged in the source with
"TODO: add these as configurable variables". -/
def VERIFICATION_BATCH_REFRESH_MS : Nat := 250

/-- The configuration record (`config::options`, held as `m_opts`), restricted
to the fields the spec says it supplies to the batching engine. -/
structure options where
  batch_size_threshold : Nat
  batch_refresh_ms : Nat
  deriving DecidableEq, Repr

/-- The batch size threshold the controller's batching engine actually uses:
the class constant `VERIFICATION_BATCH_SIZE`, independent of `m_opts`
(the source marks configurability as a TODO). -/
def controllerBatchThreshold (_opts : options) : Nat := VERIFICATION_BATCH_SIZE

/-- The flush interval (ms) the controller's batching engine actually uses:
the class constant `VERIFICATION_BATCH_REFRESH_MS`, independent of `m_opts`
(the source marks configurability as a TODO). -/
def controllerBatchRefreshMs (_opts : options) : Nat := VERIFICATION_BATCH_REFRESH_MS

/-- State of the batch accumulator embedded in the controller:
`queue` models `current_batch` (the pending verification entries), `timing`
models the `batch_timing` atomic flag, `timerTasks` counts live
`batch_timer_thread` tasks, and `flushes` counts completed
`batch_verify_all` passes (the observable flush events). -/
structure BatchState (α : Type) where
  queue : List α
  timing : Bool
  timerTasks : Nat
  flushes : Nat
  deriving DecidableEq, Repr

/-- Modelled from the spec: the flush step of `batch_verify_all` — atomically
swap the pending queue for an empty one and run one batched verification
pass over the swapped-out entries. -/
def batchFlush {α : Type} (s : BatchState α) : BatchState α :=
  { s with queue := [], flushes := s.flushes + 1 }

/-- Modelled from the spec: the enqueue step of `batch_add_verification`
(body not under src/) — append the entry under the lock; if the queue size
reaches the threshold `n`, trigger an immediate flush. -/
def batch_add_verification {α : Type} (n : Nat) (e : α) (s : BatchState α) :
    BatchState α :=
  let q := s.queue ++ [e]
  if n ≤ q.length then batchFlush { s with queue := q }
  else { s with queue := q }

/-- Modelled from the spec: one wakeup of the background timer task after the
flush interval elapses — while timing is enabled, a non-empty queue is
flushed; otherwise nothing happens. -/
def batchTimerElapse {α : Type} (s : BatchState α) : BatchState α :=
  if s.timing && !s.queue.isEmpty then batchFlush s else s

/-- Modelled from the spec: `batch_start_timing` (body not under src/) —
spawn the background timer task and enable timing, a no-op when a timer task
is already running. -/
def batch_start_timing {α : Type} (s : BatchState α) : BatchState α :=
  if s.timing then s else { s with timing := true, timerTasks := 1 }

/-- Modelled from the spec: `batch_stop_timing` (body not under src/) —
disable further timer-driven flushes, wake the background task and join it
before returning; pending entries are left unflushed. -/
def batch_stop_timing {α : Type} (s : BatchState α) : BatchState α :=
  { s with timing := false, timerTasks := 0 }

/-- Modelled from the spec: the verification core of `batch_verify_all`
(body not under src/), parametric in the opaque cryptographic checks.
`verifySingle` is the single-transaction check (`verify_one`), and
`aggregateCheck` the algebraic batch aggregate check.  When the aggregate
check passes, every entry is marked valid; when it fails, the verifier falls
back to per-entry isolation so that exactly the individually failing entries
are marked invalid. -/
def verify_batch {α : Type} (verifySingle : α → Option ProofError)
    (aggregateCheck : List α → Bool) (batch : List α) :
    List (Option ProofError) :=
  if aggregateCheck batch then batch.map (fun _ => none)
  else batch.map verifySingle

/-- A terminal outcome delivered to an `execute_result_callback_type`. -/
inductive ExecOutcome
  | rejected
  | verificationFailed (e : ProofError)
  | committed
  | aborted
  | transportFailure
  deriving DecidableEq, Repr

/-- Modelled from the spec: `result_handler` (body not under src/) — converts
the coordinator's `std::optional<bool>` response into the terminal outcome
relayed to the caller's callback. -/
def result_handler : Option Bool → ExecOutcome
  | some true => ExecOutcome.committed
  | some false => ExecOutcome.aborted
  | none => ExecOutcome.transportFailure

/-- A terminal outcome delivered to a `validate_result_callback_type`: the
sentinel attestation, or absence when the transaction was invalid or quorum
could not be reached. -/
inductive ValidateOutcome
  | attestation
  | noAttestation
  deriving DecidableEq, Repr

/-- Modelled from the spec: `execute_transaction` (body not under src/).
Static validation, then batched crypto verification (its per-entry result
slot summarised by `verifyResult`), then forwarding to the coordinator;
`forwarded` records whether the sentinel could forward the transaction (the
boolean return value is false exactly in that case), and `coordResp` is the
coordinator's eventual response.  The second component is the list of
callback invocations performed. -/
def execute_transaction {α : Type} (staticCheck : α → Bool)
    (verifyResult : Option ProofError) (forwarded : Bool)
    (coordResp : Option Bool) (tx : α) : Bool × List ExecOutcome :=
  if staticCheck tx = false then (true, [ExecOutcome.rejected])
  else
    match verifyResult with
    | some e => (true, [ExecOutcome.verificationFailed e])
    | none =>
      if forwarded then (true, [result_handler coordResp])
      else (false, [ExecOutcome.transportFailure])

/-- Modelled from the spec: `validate_transaction` (body not under src/).
Static validation and batched crypto verification as in the execute path,
then attestation gathering; the callback receives the attestation on quorum
and absence otherwise.  Per the source doc comment the boolean return value
is always `true`.  The second component is the list of callback invocations
performed. -/
def validate_transaction {α : Type} (staticCheck : α → Bool)
    (verifyResult : Option ProofError) (peerOk : Nat → Bool) (q : Nat)
    (order : List Nat) (tx : α) : Bool × List ValidateOutcome :=
  if staticCheck tx = false then (true, [ValidateOutcome.noAttestation])
  else
    match verifyResult with
    | some _ => (true, [ValidateOutcome.noAttestation])
    | none =>
      match (gather_attestations peerOk q order).1 with
      | GatherResult.attested => (true, [ValidateOutcome.attestation])
      | GatherResult.quorumFailure => (true, [ValidateOutcome.noAttestation])

/-- Mapping a pointwise-vanishing verifier over a list yields all-`none`. -/
theorem map_none_of_all_none {α : Type} (v : α → Option ProofError)
    (l : List α) (h : ∀ t ∈ l, v t = none) :
    l.map v = l.map (fun _ => (none : Option ProofError)) := by
  induction l with
  | nil => rfl
  | cons a l ih =>
      have ha : v a = none := h a (List.mem_cons_self a l)
      have hl := ih (fun t ht => h t (List.mem_cons_of_mem a ht))
      simp [ha, hl]

/-- A concrete single verifier over `Nat` entries: even entries carry a valid
proof, odd entries a malformed one. -/
def evenVerify (n : Nat) : Option ProofError :=
  if n % 2 = 0 then none else some ProofError.malformedProof

/-- A concrete aggregate check that is sound for `evenVerify`: it passes only
when every entry is even. -/
def evenAggregate (l : List Nat) : Bool := l.all (fun n => n % 2 == 0)

/-- Claim C1: every transaction submitted through `execute_transaction` or
`validate_transaction` has its result callback invoked exactly once with a
terminal outcome — never twice and never dropped — while the controller is
alive, for every combination of static check, verification result,
forwarding outcome, coordinator response and gather behaviour. -/
theorem claim_C1_callback_exactly_once {α : Type} (staticCheck : α → Bool)
    (verifyResult : Option ProofError) (forwarded : Bool)
    (coordResp : Option Bool) (peerOk : Nat → Bool) (q : Nat)
    (order : List Nat) (tx : α) :
    (execute_transaction staticCheck verifyResult forwarded coordResp tx).2.length = 1
    ∧ (validate_transaction staticCheck verifyResult peerOk q order tx).2.length = 1 := by
  constructor
  · unfold execute_transaction
    split
    · rfl
    · cases verifyResult with
      | some e => rfl
      | none =>
          by_cases hf : forwarded
          · simp [hf]
          · simp [hf]
  · unfold validate_transaction
    split
    · rfl
    · cases verifyResult with
      | some e => rfl
      | none =>
          cases h : (gather_attestations peerOk q order).1 <;> simp [h]

/-- Claim C2: within one attestation-gathering operation over a
duplicate-free draw order, no peer index is contacted twice; on quorum
failure every peer has been contacted exactly once (the trace equals the
whole order); and when fewer than `q` peers can succeed, the operation
does report quorum failure. -/
theorem claim_C2_no_peer_contacted_twice (peerOk : Nat → Bool) (q : Nat)
    (order : List Nat) (hnd : order.Nodup) :
    ((gather_attestations peerOk q order).2).Nodup
    ∧ ((gather_attestations peerOk q order).1 = GatherResult.quorumFailure →
        (gather_attestations peerOk q order).2 = order)
    ∧ (order.countP peerOk < q →
        (gather_attestations peerOk q order).1 = GatherResult.quorumFailure) := by
  refine ⟨?_, ?_, ?_⟩
  · have h := gatherFrom_contacted_sublist peerOk q order 0 []
    exact List.Nodup.sublist h hnd
  · intro hfail
    have h := gatherFrom_failure_contacts_all peerOk q order 0 [] hfail
    simpa [gather_attestations] using h
  · intro hshort
    apply gatherFrom_short_failure
    simpa using hshort

/-- Witness for claim C2 at the spec's example: `M = 3`, `Q = 3`, peer index
1 always fails — quorum failure after contacting all three peers once. -/
theorem claim_C2_witness :
    ([0, 1, 2] : List Nat).Nodup
    ∧ (((gather_attestations (fun p => p != 1) 3 [0, 1, 2]).2).Nodup
      ∧ ((gather_attestations (fun p => p != 1) 3 [0, 1, 2]).1
            = GatherResult.quorumFailure →
          (gather_attestations (fun p => p != 1) 3 [0, 1, 2]).2 = [0, 1, 2])
      ∧ (([0, 1, 2] : List Nat).countP (fun p => p != 1) < 3 →
          (gather_attestations (fun p => p != 1) 3 [0, 1, 2]).1
            = GatherResult.quorumFailure)) :=
  ⟨by decide,
    claim_C2_no_peer_contacted_twice (fun p => p != 1) 3 [0, 1, 2] (by decide)⟩

/-- Claim C3: a batch flush triggers when the pending queue reaches the
threshold `n` even though the timer has not elapsed (the enqueue step never
consults the timer), and a timer elapse with a non-empty queue flushes even
when the queue holds fewer than `n` entries. -/
theorem claim_C3_flush_triggers {α : Type} (n : Nat) (e : α)
    (s t : BatchState α)
    (hs : n ≤ s.queue.length + 1)
    (ht : t.timing = true) (hne : t.queue ≠ []) (hlt : t.queue.length < n) :
    (batch_add_verification n e s).queue = []
    ∧ (batch_add_verification n e s).flushes = s.flushes + 1
    ∧ (batchTimerElapse t).queue = []
    ∧ (batchTimerElapse t).flushes = t.flushes + 1 := by
  have hcond : n ≤ (s.queue ++ [e]).length := by
    simp only [List.length_append, List.length_cons, List.length_nil]
    omega
  have hemp : t.queue.isEmpty = false := by
    cases hq : t.queue with
    | nil => exact absurd hq hne
    | cons a l => rfl
  refine ⟨?_, ?_, ?_, ?_⟩
  · simp [batch_add_verification, batchFlush, hcond, hs]
  · simp [batch_add_verification, batchFlush, hcond, hs]
  · simp [batchTimerElapse, batchFlush, ht, hemp]
  · simp [batchTimerElapse, batchFlush, ht, hemp]

/-- Witness for claim C3: threshold 2, a queue of one entry flushes on
enqueue with the timer disabled, and a one-entry queue flushes on timer
elapse. -/
theorem claim_C3_witness :
    (2 ≤ (BatchState.mk [5] false 0 0 : BatchState Nat).queue.length + 1
      ∧ (BatchState.mk [7] true 1 0 : BatchState Nat).timing = true
      ∧ (BatchState.mk [7] true 1 0 : BatchState Nat).queue ≠ []
      ∧ (BatchState.mk [7] true 1 0 : BatchState Nat).queue.length < 2)
    ∧ ((batch_add_verification 2 6 (BatchState.mk [5] false 0 0)).queue = []
      ∧ (batch_add_verification 2 6 (BatchState.mk [5] false 0 0)).flushes
          = (BatchState.mk [5] false 0 0 : BatchState Nat).flushes + 1
      ∧ (batchTimerElapse (BatchState.mk [7] true 1 0)).queue = []
      ∧ (batchTimerElapse (BatchState.mk [7] true 1 0)).flushes
          = (BatchState.mk [7] true 1 0 : BatchState Nat).flushes + 1) :=
  ⟨⟨by decide, by decide, by decide, by decide⟩,
    claim_C3_flush_triggers 2 6 (BatchState.mk [5] false 0 0)
      (BatchState.mk [7] true 1 0) (by decide) (by decide) (by decide)
      (by decide)⟩

/-- Claim C4: in a batch of `k + 1` entries where exactly one entry is
cryptographically invalid (under any aggregate check that is sound on this
batch), batch verification marks only the invalid entry with its proof error
and fills every valid entry's slot with no error. -/
theorem claim_C4_single_invalid_isolated {α : Type}
    (verifySingle : α → Option ProofError) (aggregateCheck : List α → Bool)
    (pre post : List α) (bad : α) (e : ProofError)
    (hsound : aggregateCheck (pre ++ bad :: post) = true →
        ∀ t ∈ pre ++ bad :: post, verifySingle t = none)
    (hbad : verifySingle bad = some e)
    (hpre : ∀ t ∈ pre, verifySingle t = none)
    (hpost : ∀ t ∈ post, verifySingle t = none) :
    verify_batch verifySingle aggregateCheck (pre ++ bad :: post)
      = pre.map (fun _ => (none : Option ProofError))
        ++ some e :: post.map (fun _ => (none : Option ProofError)) := by
  have hagg : aggregateCheck (pre ++ bad :: post) = false := by
    cases hc : aggregateCheck (pre ++ bad :: post) with
    | false => rfl
    | true =>
        have hb := hsound hc bad (by simp)
        rw [hbad] at hb
        exact absurd hb (by simp)
  unfold verify_batch
  rw [hagg]
  simp only [Bool.false_eq_true, if_false, List.map_append, List.map_cons, hbad]
  rw [map_none_of_all_none verifySingle pre hpre,
    map_none_of_all_none verifySingle post hpost]

/-- Witness for claim C4: the batch `[2, 3, 4]` with `3` the only invalid
entry is marked `[valid, malformed proof, valid]`. -/
theorem claim_C4_witness :
    ((evenAggregate ([2] ++ 3 :: [4]) = true →
        ∀ t ∈ [2] ++ 3 :: [4], evenVerify t = none)
      ∧ evenVerify 3 = some ProofError.malformedProof
      ∧ (∀ t ∈ [2], evenVerify t = none) ∧ (∀ t ∈ [4], evenVerify t = none))
    ∧ verify_batch evenVerify evenAggregate ([2] ++ 3 :: [4])
        = [2].map (fun _ => (none : Option ProofError))
          ++ some ProofError.malformedProof
            :: [4].map (fun _ => (none : Option ProofError)) :=
  ⟨⟨by decide, by decide, by decide, by decide⟩,
    claim_C4_single_invalid_isolated evenVerify evenAggregate [2] [4] 3
      ProofError.malformedProof (by decide) (by decide) (by decide)
      (by decide)⟩

/-- Claim C5: batched verification is at least as strict as single
verification — under an aggregate check that is sound on the batch, any
entry whose batch result slot is filled with no error also passes
single-mode verification. -/
theorem claim_C5_batch_at_least_as_strict {α : Type}
    (verifySingle : α → Option ProofError) (aggregateCheck : List α → Bool)
    (batch : List α)
    (hsound : aggregateCheck batch = true → ∀ t ∈ batch, verifySingle t = none)
    (p : α × Option ProofError)
    (hp : p ∈ batch.zip (verify_batch verifySingle aggregateCheck batch))
    (hvalid : p.2 = none) :
    verifySingle p.1 = none := by
  obtain ⟨a, b⟩ := p
  unfold verify_batch at hp
  cases hagg : aggregateCheck batch with
  | true =>
      rw [hagg] at hp
      simp only [if_true] at hp
      exact hsound hagg a (List.of_mem_zip hp).1
  | false =>
      rw [hagg] at hp
      simp only [Bool.false_eq_true, if_false] at hp
      have hz : batch.zip (batch.map verifySingle)
          = batch.map (fun t => (t, verifySingle t)) := by
        have h := List.zip_map' id verifySingle batch
        simpa using h
      rw [hz] at hp
      obtain ⟨t, _, hpt⟩ := List.mem_map.mp hp
      obtain ⟨h1, h2⟩ := Prod.mk.injEq .. ▸ hpt
      subst h1
      simp only at hvalid
      rw [← h2] at hvalid
      exact hvalid

/-- Witness for claim C5: in the all-valid batch `[2, 4]` the entry `2` is
marked valid in batch mode and indeed passes single-mode verification. -/
theorem claim_C5_witness :
    ((evenAggregate [2, 4] = true → ∀ t ∈ [2, 4], evenVerify t = none)
      ∧ (2, (none : Option ProofError))
          ∈ ([2, 4] : List Nat).zip (verify_batch evenVerify evenAggregate [2, 4]))
    ∧ evenVerify 2 = none :=
  ⟨⟨by decide, by decide⟩,
    claim_C5_batch_at_least_as_strict evenVerify evenAggregate [2, 4]
      (by decide) (2, none) (by decide) (by decide)⟩

/-- Claim C6: with required quorum 0 attestation gathering succeeds
immediately with zero peers contacted; with an empty peer pool and positive
quorum it fails immediately with a quorum failure, again with zero peers
contacted. -/
theorem claim_C6_quorum_edge_cases (peerOk : Nat → Bool) (q : Nat)
    (order : List Nat) (hq : 0 < q) :
    gather_attestations peerOk 0 order = (GatherResult.attested, [])
    ∧ gather_attestations peerOk q [] = (GatherResult.quorumFailure, []) := by
  constructor
  · unfold gather_attestations gatherFrom
    simp
  · unfold gather_attestations gatherFrom
    have h : ¬ q ≤ 0 := by omega
    simp [h]

/-- Witness for claim C6 at `q = 1` with a one-peer pool for the first part
and the empty pool for the second. -/
theorem claim_C6_witness :
    0 < 1
    ∧ (gather_attestations (fun _ => true) 0 [0]
          = (GatherResult.attested, [])
      ∧ gather_attestations (fun _ => true) 1 []
          = (GatherResult.quorumFailure, [])) :=
  ⟨by decide, claim_C6_quorum_edge_cases (fun _ => true) 1 [0] (by decide)⟩

/-- Claim C7 counterexample: the claim that the batching engine uses the
configured threshold and interval fails at the concrete configuration
`{ batch_size_threshold := 7, batch_refresh_ms := 9 }` — the engine uses the
class constants 100 and 250 instead. -/
theorem claim_C7_counterexample :
    ¬ (controllerBatchThreshold (options.mk 7 9) = 7
       ∧ controllerBatchRefreshMs (options.mk 7 9) = 9) := by
  decide

/-- Claim C7 (amended): the batch size threshold and flush interval used by
the batching engine are the compile-time class constants
`VERIFICATION_BATCH_SIZE = 100` entries and
`VERIFICATION_BATCH_REFRESH_MS = 250` ms for every configuration; the
source marks making them configurable as a TODO. -/
theorem claim_C7_constants_not_configured (opts : options) :
    controllerBatchThreshold opts = VERIFICATION_BATCH_SIZE
    ∧ controllerBatchRefreshMs opts = VERIFICATION_BATCH_REFRESH_MS
    ∧ VERIFICATION_BATCH_SIZE = 100
    ∧ VERIFICATION_BATCH_REFRESH_MS = 250 :=
  ⟨rfl, rfl, rfl, rfl⟩

/-- Claim C8: `batch_start_timing` and `batch_stop_timing` are idempotent —
starting twice in a row equals starting once and leaves exactly one active
timer task (from any well-formed state, where a timer task is live iff
timing is enabled), and stopping twice equals stopping once. -/
theorem claim_C8_start_stop_idempotent {α : Type} (s : BatchState α)
    (hw : s.timerTasks = if s.timing then 1 else 0) :
    batch_start_timing (batch_start_timing s) = batch_start_timing s
    ∧ (batch_start_timing s).timerTasks = 1
    ∧ batch_stop_timing (batch_stop_timing s) = batch_stop_timing s := by
  refine ⟨?_, ?_, ?_⟩
  · unfold batch_start_timing
    by_cases h : s.timing
    · simp [h]
    · simp [h]
  · unfold batch_start_timing
    by_cases h : s.timing
    · rw [h] at hw
      simp [h, hw]
    · simp [h]
  · rfl

/-- Witness for claim C8 at the idle well-formed state with an empty queue
and timing disabled. -/
theorem claim_C8_witness :
    ((BatchState.mk ([] : List Nat) false 0 0).timerTasks
        = if (BatchState.mk ([] : List Nat) false 0 0).timing then 1 else 0)
    ∧ (batch_start_timing (batch_start_timing (BatchState.mk ([] : List Nat) false 0 0))
          = batch_start_timing (BatchState.mk ([] : List Nat) false 0 0)
      ∧ (batch_start_timing (BatchState.mk ([] : List Nat) false 0 0)).timerTasks = 1
      ∧ batch_stop_timing (batch_stop_timing (BatchState.mk ([] : List Nat) false 0 0))
          = batch_stop_timing (BatchState.mk ([] : List Nat) false 0 0)) :=
  ⟨by decide,
    claim_C8_start_stop_idempotent (BatchState.mk ([] : List Nat) false 0 0)
      (by decide)⟩

/-- Claim C9: `batch_stop_timing` disables timer-driven flushes and joins
the background timer task (no live timer task afterwards) while leaving the
pending verification queue unchanged and performing no flush. -/
theorem claim_C9_stop_frame {α : Type} (s : BatchState α) :
    (batch_stop_timing s).queue = s.queue
    ∧ (batch_stop_timing s).timing = false
    ∧ (batch_stop_timing s).timerTasks = 0
    ∧ (batch_stop_timing s).flushes = s.flushes :=
  ⟨rfl, rfl, rfl, rfl⟩

/-- Claim C10: `validate_transaction` returns `true` for every input
transaction, callback and collaborator behaviour; the validation outcome is
delivered only through the callback. -/
theorem claim_C10_validate_returns_true {α : Type} (staticCheck : α → Bool)
    (verifyResult : Option ProofError) (peerOk : Nat → Bool) (q : Nat)
    (order : List Nat) (tx : α) :
    (validate_transaction staticCheck verifyResult peerOk q order tx).1 = true := by
  unfold validate_transaction
  split
  · rfl
  · cases verifyResult with
    | some e => rfl
    | none =>
        cases h : (gather_attestations peerOk q order).1 <;> simp [h]

end Sentinel2pc
